import Mathlib

/-
Verification of the trading backend core against its specification.

The Python source is embedded shallowly:
  * numeric columns are `List ℚ`; columns that may contain NaN entries
    (e.g. rolling indicators during warm-up, pandas `shift`/`diff` output)
    are `List (Option ℚ)` / `List (Option Int)` with `none` standing for NaN;
  * pandas comparisons involving NaN are `false`, as in the library;
  * raised Python exceptions become `Except` error values (`PyError`);
  * floating point arithmetic is modelled by exact rational arithmetic.
-/

/-- Python exception values raised by the core.  Every expected error in the
source is raised as the builtin `ValueError`, carrying only a message. -/
inductive PyError
  | valueError (msg : String)
deriving DecidableEq, Repr

/-- The Python class (exception kind) of an error value, as a caller sees it
in an `except` clause. -/
def PyError.kind : PyError → String
  | .valueError _ => "ValueError"

/-- The message carried by an error value. -/
def PyError.message : PyError → String
  | .valueError m => m

/-- The exception kind of a computation's outcome (`none` when it succeeded). -/
def errKind {ε α : Type} (k : ε → PyError) : Except ε α → Option String
  | .error e => some (k e).kind
  | .ok _ => none

/-! ### Pandas-style column primitives -/

/-- `a < b` on Option-valued entries; comparison with NaN (`none`) is false. -/
def optLt (a b : Option ℚ) : Bool :=
  match a, b with
  | some x, some y => decide (x < y)
  | _, _ => false

/-- `a ≤ b` on Option-valued entries; comparison with NaN (`none`) is false. -/
def optLe (a b : Option ℚ) : Bool :=
  match a, b with
  | some x, some y => decide (x ≤ y)
  | _, _ => false

/-- `a ≥ b` on Option-valued entries; comparison with NaN (`none`) is false. -/
def optGe (a b : Option ℚ) : Bool :=
  match a, b with
  | some x, some y => decide (y ≤ x)
  | _, _ => false

/-- The trailing window of `p` entries ending at index `t` (both included). -/
def windowEnd (l : List ℚ) (p t : ℕ) : List ℚ :=
  (l.take (t + 1)).drop (t + 1 - p)

/-- indicators.py `calculate_sma`: pandas `rolling(window=period).mean()`.
Entries are NaN until a full window of `period` rows is available. -/
def calculate_sma (data : List ℚ) (period : ℕ) : List (Option ℚ) :=
  (List.range data.length).map (fun t =>
    if 1 ≤ period ∧ period ≤ t + 1 then
      some ((windowEnd data period t).sum / (period : ℚ))
    else none)

/-- Recursive exponential smoothing: `e t = α * x t + (1 - α) * e (t-1)`. -/
def emaFrom (α : ℚ) (prev : ℚ) : List ℚ → List ℚ
  | [] => []
  | x :: xs =>
    let e := α * x + (1 - α) * prev
    e :: emaFrom α e xs

/-- indicators.py `calculate_ema`: pandas `ewm(span=period, adjust=False).mean()`,
seeded by the first raw value, smoothing factor `2 / (period + 1)`. -/
def calculate_ema (data : List ℚ) (period : ℕ) : List (Option ℚ) :=
  match data with
  | [] => []
  | x :: xs => (x :: emaFrom (2 / ((period : ℚ) + 1)) x xs).map some

/-- pandas `Series.diff()` on an integer column: NaN at index 0, else the
difference with the previous entry. -/
def intDiff (l : List Int) : List (Option Int) :=
  match l with
  | [] => []
  | _ :: xs => none :: List.zipWith (fun a b => some (a - b)) xs l

/-! ### Bar data and validation (base_strategy.py) -/

/-- A bar-sequence DataFrame as the strategies see it: the set of column
names present, plus the close column the signal logic reads. -/
structure BarFrame where
  columns : List String
  close : List ℚ
deriving DecidableEq, Repr

/-- base_strategy.py `validate_data`: all required OHLCV columns present. -/
def validate_data (data : BarFrame) : Bool :=
  ["open", "high", "low", "close", "volume"].all (fun c => data.columns.contains c)

/-! ### MovingAverageCrossover strategy (ma_crossover.py) -/

inductive MAType
  | SMA
  | EMA
deriving DecidableEq, Repr

structure MACrossover where
  short_window : ℕ
  long_window : ℕ
  ma_type : MAType
deriving DecidableEq, Repr

/-- ma_crossover.py lines 48-56: signal column, 0 by default, set to 1 where
`short_ma > long_ma` and to -1 where `short_ma < long_ma` (the conditions are
disjoint, so assignment order does not matter). NaN comparisons are false. -/
def maSignal (short_ma long_ma : List (Option ℚ)) : List Int :=
  List.zipWith (fun s l =>
    if optLt l s then 1 else if optLt s l then -1 else 0) short_ma long_ma

/-- ma_crossover.py lines 62-64: crossover column from the `position` column
(`signal.diff()`): 1 where the diff equals 2, -1 where it equals -2, else 0. -/
def crossoverOfDiff (d : List (Option Int)) : List Int :=
  d.map (fun x => if x = some 2 then 1 else if x = some (-2) then -1 else 0)

/-- The annotated output of `MACrossover.generate_signals`. -/
structure MaFrame where
  short_ma : List (Option ℚ)
  long_ma : List (Option ℚ)
  signal : List Int
  position : List (Option Int)
  crossover : List Int
deriving DecidableEq, Repr

/-- The pure annotation pipeline of ma_crossover.py lines 38-66, applied once
the input frame has been validated. -/
def macrossAnnotate (st : MACrossover) (close : List ℚ) : MaFrame :=
  let short_ma :=
    match st.ma_type with
    | .SMA => calculate_sma close st.short_window
    | .EMA => calculate_ema close st.short_window
  let long_ma :=
    match st.ma_type with
    | .SMA => calculate_sma close st.long_window
    | .EMA => calculate_ema close st.long_window
  let signal := maSignal short_ma long_ma
  let position := intDiff signal
  { short_ma := short_ma, long_ma := long_ma, signal := signal,
    position := position, crossover := crossoverOfDiff position }

/-- ma_crossover.py `generate_signals`: raises `ValueError("Invalid data
format")` when a required column is missing, else returns the annotated frame. -/
def MACrossover.generate_signals (st : MACrossover) (data : BarFrame) :
    Except PyError MaFrame :=
  if !validate_data data then .error (PyError.valueError ("Invalid data format"))
  else .ok (macrossAnnotate st data.close)

/-! ### Supporting lemmas: column lengths and pointwise values -/

theorem length_calculate_sma (data : List ℚ) (period : ℕ) :
    (calculate_sma data period).length = data.length := by
  simp [calculate_sma]

theorem length_emaFrom (α prev : ℚ) (l : List ℚ) :
    (emaFrom α prev l).length = l.length := by
  induction l generalizing prev with
  | nil => rfl
  | cons x xs ih => simp [emaFrom, ih]

theorem length_calculate_ema (data : List ℚ) (period : ℕ) :
    (calculate_ema data period).length = data.length := by
  cases data with
  | nil => rfl
  | cons x xs => simp [calculate_ema, length_emaFrom]

theorem length_maSignal (a b : List (Option ℚ)) :
    (maSignal a b).length = min a.length b.length := by
  simp [maSignal]

theorem length_intDiff (l : List Int) : (intDiff l).length = l.length := by
  cases l with
  | nil => rfl
  | cons x xs => simp [intDiff]

theorem zipWith_sub_getD (xs ys : List Int) (k : ℕ)
    (hx : k < xs.length) (hy : k < ys.length) :
    (List.zipWith (fun a b => some (a - b)) xs ys).getD k none
      = some (xs.getD k 0 - ys.getD k 0) := by
  simp [List.getD_eq_getElem?_getD, List.getElem?_zipWith,
    List.getElem?_eq_getElem hx, List.getElem?_eq_getElem hy]

theorem intDiff_getD (l : List Int) (t : ℕ) (h1 : 1 ≤ t) (h2 : t < l.length) :
    (intDiff l).getD t none = some (l.getD t 0 - l.getD (t - 1) 0) := by
  match l, t with
  | x :: xs, k + 1 =>
    have hx : k < xs.length := by simpa using h2
    have hy : k < (x :: xs).length := by simp; omega
    show (List.zipWith (fun a b => some (a - b)) xs (x :: xs)).getD k none = _
    rw [zipWith_sub_getD xs (x :: xs) k hx hy]
    simp

theorem crossoverOfDiff_getD (d : List (Option Int)) (t : ℕ) (ht : t < d.length) :
    (crossoverOfDiff d).getD t 0
      = (if d.getD t none = some 2 then 1
         else if d.getD t none = some (-2) then -1 else 0) := by
  simp [crossoverOfDiff, List.getD_eq_getElem?_getD, List.getElem?_map,
    List.getElem?_eq_getElem ht]

theorem maSignal_getD_cases (a b : List (Option ℚ)) (t : ℕ) :
    (maSignal a b).getD t 0 = 1 ∨ (maSignal a b).getD t 0 = -1 ∨
      (maSignal a b).getD t 0 = 0 := by
  rw [List.getD_eq_getElem?_getD, maSignal, List.getElem?_zipWith]
  rcases a[t]? with _ | x <;> rcases b[t]? with _ | y
  · simp
  · simp
  · simp
  · by_cases h1 : optLt y x <;> by_cases h2 : optLt x y <;> simp [h1, h2]

theorem length_macrossAnnotate_signal (st : MACrossover) (close : List ℚ) :
    (macrossAnnotate st close).signal.length = close.length := by
  show (maSignal _ _).length = _
  rw [length_maSignal]
  cases st.ma_type <;>
    simp [macrossAnnotate, length_calculate_sma, length_calculate_ema]


/-- Claim C4: for the MovingAverageCrossover strategy, on every annotated
output and for every bar index `t ≥ 1`, the crossover event marker at `t` is
non-zero exactly when `signal t - signal (t-1)` equals 2 or -2, with marker
1 exactly on a -1 to 1 transition and marker -1 exactly on a 1 to -1
transition; a sustained signal of the same sign never re-fires an event. -/
theorem c4_macrossover_edge_trigger (st : MACrossover) (data : BarFrame)
    (hv : validate_data data = true) (t : ℕ) (h1 : 1 ≤ t)
    (h2 : t < data.close.length) :
    st.generate_signals data = .ok (macrossAnnotate st data.close) ∧
    ((macrossAnnotate st data.close).crossover.getD t 0 ≠ 0 ↔
      ((macrossAnnotate st data.close).signal.getD t 0
          - (macrossAnnotate st data.close).signal.getD (t - 1) 0 = 2 ∨
        (macrossAnnotate st data.close).signal.getD t 0
          - (macrossAnnotate st data.close).signal.getD (t - 1) 0 = -2)) ∧
    ((macrossAnnotate st data.close).crossover.getD t 0 = 1 ↔
      ((macrossAnnotate st data.close).signal.getD (t - 1) 0 = -1 ∧
        (macrossAnnotate st data.close).signal.getD t 0 = 1)) ∧
    ((macrossAnnotate st data.close).crossover.getD t 0 = -1 ↔
      ((macrossAnnotate st data.close).signal.getD (t - 1) 0 = 1 ∧
        (macrossAnnotate st data.close).signal.getD t 0 = -1)) := by
  have hok : st.generate_signals data = .ok (macrossAnnotate st data.close) := by
    simp [MACrossover.generate_signals, hv]
  refine ⟨hok, ?_⟩
  have hsiglen : (macrossAnnotate st data.close).signal.length = data.close.length :=
    length_macrossAnnotate_signal st data.close
  have hco : (macrossAnnotate st data.close).crossover
      = crossoverOfDiff (intDiff (macrossAnnotate st data.close).signal) := rfl
  have htd : t < (intDiff (macrossAnnotate st data.close).signal).length := by
    rw [length_intDiff, hsiglen]; exact h2
  have hdiff : (intDiff (macrossAnnotate st data.close).signal).getD t none
      = some ((macrossAnnotate st data.close).signal.getD t 0
          - (macrossAnnotate st data.close).signal.getD (t - 1) 0) :=
    intDiff_getD _ t h1 (by rw [hsiglen]; exact h2)
  have hval : (macrossAnnotate st data.close).crossover.getD t 0
      = (if (macrossAnnotate st data.close).signal.getD t 0
            - (macrossAnnotate st data.close).signal.getD (t - 1) 0 = 2 then 1
         else if (macrossAnnotate st data.close).signal.getD t 0
            - (macrossAnnotate st data.close).signal.getD (t - 1) 0 = -2 then -1
         else 0) := by
    rw [hco, crossoverOfDiff_getD _ t htd, hdiff]
    simp
  have hcur := maSignal_getD_cases
    (match st.ma_type with
     | .SMA => calculate_sma data.close st.short_window
     | .EMA => calculate_ema data.close st.short_window)
    (match st.ma_type with
     | .SMA => calculate_sma data.close st.long_window
     | .EMA => calculate_ema data.close st.long_window) t
  have hprev := maSignal_getD_cases
    (match st.ma_type with
     | .SMA => calculate_sma data.close st.short_window
     | .EMA => calculate_ema data.close st.short_window)
    (match st.ma_type with
     | .SMA => calculate_sma data.close st.long_window
     | .EMA => calculate_ema data.close st.long_window) (t - 1)
  have hcur' : (macrossAnnotate st data.close).signal.getD t 0 = 1 ∨
      (macrossAnnotate st data.close).signal.getD t 0 = -1 ∨
      (macrossAnnotate st data.close).signal.getD t 0 = 0 := hcur
  have hprev' : (macrossAnnotate st data.close).signal.getD (t - 1) 0 = 1 ∨
      (macrossAnnotate st data.close).signal.getD (t - 1) 0 = -1 ∨
      (macrossAnnotate st data.close).signal.getD (t - 1) 0 = 0 := hprev
  rw [hval]
  rcases hcur' with hc | hc | hc <;> rcases hprev' with hp | hp | hp <;>
    rw [hc, hp] <;> norm_num

/-- Witness for claim C4 at a concrete input: SMA crossover with windows 1
and 2 on closes 1, 2, 3; at bar 1 the signal transitions from 0 to 1, so no
crossover fires there. -/
theorem c4_macrossover_edge_trigger_witness :
    (MACrossover.mk 1 2 MAType.SMA).generate_signals
        (BarFrame.mk ["open", "high", "low", "close", "volume"] [1, 2, 3])
      = .ok (macrossAnnotate (MACrossover.mk 1 2 MAType.SMA) [1, 2, 3]) ∧
    ((macrossAnnotate (MACrossover.mk 1 2 MAType.SMA) [1, 2, 3]).crossover.getD 1 0 ≠ 0 ↔
      ((macrossAnnotate (MACrossover.mk 1 2 MAType.SMA) [1, 2, 3]).signal.getD 1 0
          - (macrossAnnotate (MACrossover.mk 1 2 MAType.SMA) [1, 2, 3]).signal.getD (1 - 1) 0 = 2 ∨
        (macrossAnnotate (MACrossover.mk 1 2 MAType.SMA) [1, 2, 3]).signal.getD 1 0
          - (macrossAnnotate (MACrossover.mk 1 2 MAType.SMA) [1, 2, 3]).signal.getD (1 - 1) 0 = -2)) ∧
    ((macrossAnnotate (MACrossover.mk 1 2 MAType.SMA) [1, 2, 3]).crossover.getD 1 0 = 1 ↔
      ((macrossAnnotate (MACrossover.mk 1 2 MAType.SMA) [1, 2, 3]).signal.getD (1 - 1) 0 = -1 ∧
        (macrossAnnotate (MACrossover.mk 1 2 MAType.SMA) [1, 2, 3]).signal.getD 1 0 = 1)) ∧
    ((macrossAnnotate (MACrossover.mk 1 2 MAType.SMA) [1, 2, 3]).crossover.getD 1 0 = -1 ↔
      ((macrossAnnotate (MACrossover.mk 1 2 MAType.SMA) [1, 2, 3]).signal.getD (1 - 1) 0 = 1 ∧
        (macrossAnnotate (MACrossover.mk 1 2 MAType.SMA) [1, 2, 3]).signal.getD 1 0 = -1)) :=
  c4_macrossover_edge_trigger (MACrossover.mk 1 2 MAType.SMA)
    (BarFrame.mk ["open", "high", "low", "close", "volume"] [1, 2, 3])
    (by decide) 1 (by decide) (by decide)

/-! ### BollingerMeanReversion strategy (bollinger_bands.py, indicators.py) -/

/-- Exact rational square root: `some r` with `r * r = q` and `0 ≤ r` when such
a rational exists, else `none`.  The Python code computes the rolling standard
deviation in floating point; the embedding keeps a band value only where the
exact standard deviation is rational, and marks it unrepresentable (`none`,
treated like a missing value) otherwise.  Every statement below either
evaluates bands only at exactly representable points or holds for arbitrary
band columns. -/
def isqrtGo (n : ℕ) : ℕ → ℕ → ℕ
  | 0, k => k
  | fuel + 1, k => if (k + 1) * (k + 1) ≤ n then isqrtGo n fuel (k + 1) else k

/-- Integer square root by bounded upward search (kernel-reducible). -/
def isqrt (n : ℕ) : ℕ := isqrtGo n n 0

def ratSqrt (q : ℚ) : Option ℚ :=
  let r : ℚ := (isqrt q.num.toNat : ℚ) / (isqrt q.den : ℚ)
  if 0 ≤ q.num ∧ r * r = q then some r else none

/-- Sample variance with one delta degree of freedom, as used by pandas
`rolling(...).std()` (`ddof=1`). -/
def sampleVar (w : List ℚ) : ℚ :=
  let m := w.sum / (w.length : ℚ)
  ((w.map (fun x => (x - m) ^ 2)).sum) / ((w.length : ℚ) - 1)

/-- pandas `rolling(window=period).std()`: sample standard deviation of each
full trailing window; NaN during warm-up, and NaN everywhere when the window
has fewer than two rows (`ddof=1`). -/
def rolling_std (data : List ℚ) (period : ℕ) : List (Option ℚ) :=
  (List.range data.length).map (fun t =>
    if 2 ≤ period ∧ period ≤ t + 1 then ratSqrt (sampleVar (windowEnd data period t))
    else none)

/-- The three band columns produced by indicators.py `calculate_bollinger_bands`. -/
structure BollBands where
  sma : List (Option ℚ)
  upper_band : List (Option ℚ)
  lower_band : List (Option ℚ)
deriving DecidableEq, Repr

/-- indicators.py `calculate_bollinger_bands`: middle = SMA, upper/lower =
middle plus/minus `std * std_dev`. -/
def calculate_bollinger_bands (data : List ℚ) (period : ℕ) (std_dev : ℚ) : BollBands :=
  let sma := calculate_sma data period
  let std := rolling_std data period
  { sma := sma,
    upper_band := List.zipWith (fun m s =>
      match m, s with
      | some mv, some sv => some (mv + sv * std_dev)
      | _, _ => none) sma std,
    lower_band := List.zipWith (fun m s =>
      match m, s with
      | some mv, some sv => some (mv - sv * std_dev)
      | _, _ => none) sma std }

structure BollingerBands where
  period : ℕ
  std_dev : ℚ
deriving DecidableEq, Repr

/-- bollinger_bands.py lines 48-55, at one index: signal 0 by default, set to
1 where `close ≤ bb_lower`, then set to -1 where `close ≥ bb_upper`; the
second assignment overwrites the first where both conditions hold. -/
def bbRaw (close : List ℚ) (lower upper : List (Option ℚ)) (t : ℕ) : Int :=
  if optGe close[t]? (upper.getD t none) = true then -1
  else if optLe close[t]? (lower.getD t none) = true then 1
  else 0

/-- bollinger_bands.py line 58: the first exit rule sets the signal to 0 where
`close ≥ bb_middle` and the previous entry of the signal column (as assigned
so far, i.e. `bbRaw`) equals 1; the shifted comparison is false at index 0. -/
def bbS1 (close : List ℚ) (lower upper middle : List (Option ℚ)) (t : ℕ) : Int :=
  if optGe close[t]? (middle.getD t none) = true ∧ 1 ≤ t ∧
      bbRaw close lower upper (t - 1) = 1 then 0
  else bbRaw close lower upper t

/-- bollinger_bands.py line 59: the second exit rule sets the signal to 0 where
`close ≤ bb_middle` and the previous entry of the signal column (as updated by
the first exit rule) equals -1. -/
def bbS2 (close : List ℚ) (lower upper middle : List (Option ℚ)) (t : ℕ) : Int :=
  if optLe close[t]? (middle.getD t none) = true ∧ 1 ≤ t ∧
      bbS1 close lower upper middle (t - 1) = -1 then 0
  else bbS1 close lower upper middle t

/-- bollinger_bands.py lines 62-67: entry markers; `prev_signal` is the final
signal column shifted by one, and a comparison with the NaN at index 0 makes
the `!=` masks true there. -/
def bbPosition (close : List ℚ) (lower upper middle : List (Option ℚ)) (t : ℕ) : Int :=
  if bbS2 close lower upper middle t = 1 ∧
      (t = 0 ∨ bbS2 close lower upper middle (t - 1) ≠ 1) then 1
  else if bbS2 close lower upper middle t = -1 ∧
      (t = 0 ∨ bbS2 close lower upper middle (t - 1) ≠ -1) then -1
  else 0

/-- The annotated output of `BollingerBands.generate_signals`. -/
structure BbFrame where
  bb_middle : List (Option ℚ)
  bb_upper : List (Option ℚ)
  bb_lower : List (Option ℚ)
  signal : List Int
  crossover : List Int
deriving DecidableEq, Repr

/-- The pure annotation pipeline of bollinger_bands.py lines 36-72 (the
`position` column equals the `crossover` column, line 70). -/
def bollingerAnnotate (st : BollingerBands) (close : List ℚ) : BbFrame :=
  let bands := calculate_bollinger_bands close st.period st.std_dev
  { bb_middle := bands.sma,
    bb_upper := bands.upper_band,
    bb_lower := bands.lower_band,
    signal := (List.range close.length).map
      (bbS2 close bands.lower_band bands.upper_band bands.sma),
    crossover := (List.range close.length).map
      (bbPosition close bands.lower_band bands.upper_band bands.sma) }

/-- bollinger_bands.py `generate_signals`: raises `ValueError("Invalid data
format")` when a required column is missing, else returns the annotated frame. -/
def BollingerBands.generate_signals (st : BollingerBands) (data : BarFrame) :
    Except PyError BbFrame :=
  if !validate_data data then .error (PyError.valueError ("Invalid data format"))
  else .ok (bollingerAnnotate st data.close)

theorem rangeMap_getD (f : ℕ → Int) (n t : ℕ) (ht : t < n) :
    ((List.range n).map f).getD t 0 = f t := by
  simp [List.getD_eq_getElem?_getD, List.getElem?_map, List.getElem?_range ht]

theorem bbRaw_cases (close : List ℚ) (lower upper : List (Option ℚ)) (t : ℕ) :
    bbRaw close lower upper t = 1 ∨ bbRaw close lower upper t = -1 ∨
      bbRaw close lower upper t = 0 := by
  unfold bbRaw
  split_ifs <;> simp

theorem bbS2_cases (close : List ℚ) (lower upper middle : List (Option ℚ)) (t : ℕ) :
    bbS2 close lower upper middle t = 1 ∨ bbS2 close lower upper middle t = -1 ∨
      bbS2 close lower upper middle t = 0 := by
  unfold bbS2 bbS1
  split_ifs <;> first | simp | exact bbRaw_cases close lower upper t

/-- Claim C8, counterexample: BollingerMeanReversion(2, 2) on the two constant
closes 100, 100.  At bar 1 all three bands collapse to 100, the close
satisfies `close ≤ bb_lower`, yet the emitted signal is -1 (the
`close ≥ bb_upper` assignment overwrites the +1), contradicting the claimed
per-bar rule that the signal is +1 when close ≤ lower band. -/
theorem c8_bollinger_counterexample :
    (BollingerBands.mk 2 2).generate_signals
        (BarFrame.mk ["open", "high", "low", "close", "volume"] [100, 100])
      = .ok (bollingerAnnotate (BollingerBands.mk 2 2) [100, 100]) ∧
    optLe ([(100 : ℚ), 100])[1]?
        ((bollingerAnnotate (BollingerBands.mk 2 2) [100, 100]).bb_lower.getD 1 none)
      = true ∧
    (bollingerAnnotate (BollingerBands.mk 2 2) [100, 100]).signal.getD 1 0 = -1 := by
  have hb : calculate_bollinger_bands [100, 100] 2 2 =
      BollBands.mk [none, some 100] [none, some 100] [none, some 100] := by
    norm_num [calculate_bollinger_bands, calculate_sma, rolling_std, sampleVar,
      windowEnd, List.range_succ, ratSqrt, isqrt, isqrtGo]
  refine ⟨rfl, ?_, ?_⟩
  · show optLe _ ((calculate_bollinger_bands [100, 100] 2 2).lower_band.getD 1 none) = true
    rw [hb]
    norm_num [optLe]
  · show ((List.range 2).map (bbS2 [100, 100]
        (calculate_bollinger_bands [100, 100] 2 2).lower_band
        (calculate_bollinger_bands [100, 100] 2 2).upper_band
        (calculate_bollinger_bands [100, 100] 2 2).sma)).getD 1 0 = -1
    rw [hb]
    norm_num [List.range_succ, bbS2, bbS1, bbRaw, optLe, optGe]

theorem bbS2_inside_zero (close : List ℚ) (lower upper middle : List (Option ℚ))
    (t : ℕ) (hu : optGe close[t]? (upper.getD t none) = false)
    (hl : optLe close[t]? (lower.getD t none) = false) :
    bbS2 close lower upper middle t = 0 := by
  have hr : bbRaw close lower upper t = 0 := by
    unfold bbRaw
    rw [hu, hl]
    simp
  unfold bbS2 bbS1
  split_ifs <;> first | rfl | exact hr

theorem bbS2_reset1_zero (close : List ℚ) (lower upper middle : List (Option ℚ))
    (t : ℕ) (h : optGe close[t]? (middle.getD t none) = true ∧ 1 ≤ t ∧
      bbRaw close lower upper (t - 1) = 1) :
    bbS2 close lower upper middle t = 0 := by
  unfold bbS2
  split_ifs with h2
  · rfl
  · unfold bbS1
    rw [if_pos h]

theorem bbS2_reset2_zero (close : List ℚ) (lower upper middle : List (Option ℚ))
    (t : ℕ) (h : optLe close[t]? (middle.getD t none) = true ∧ 1 ≤ t ∧
      bbS1 close lower upper middle (t - 1) = -1) :
    bbS2 close lower upper middle t = 0 := by
  unfold bbS2
  rw [if_pos h]

theorem bbS2_noreset (close : List ℚ) (lower upper middle : List (Option ℚ))
    (t : ℕ)
    (hn1 : ¬(optGe close[t]? (middle.getD t none) = true ∧ 1 ≤ t ∧
      bbRaw close lower upper (t - 1) = 1))
    (hn2 : ¬(optLe close[t]? (middle.getD t none) = true ∧ 1 ≤ t ∧
      bbS1 close lower upper middle (t - 1) = -1)) :
    bbS2 close lower upper middle t = bbRaw close lower upper t := by
  unfold bbS2
  rw [if_neg hn2]
  unfold bbS1
  rw [if_neg hn1]

theorem bbRaw_upper (close : List ℚ) (lower upper : List (Option ℚ)) (t : ℕ)
    (hu : optGe close[t]? (upper.getD t none) = true) :
    bbRaw close lower upper t = -1 := by
  unfold bbRaw
  rw [hu]
  simp

theorem bbRaw_lower (close : List ℚ) (lower upper : List (Option ℚ)) (t : ℕ)
    (hu : optGe close[t]? (upper.getD t none) = false)
    (hl : optLe close[t]? (lower.getD t none) = true) :
    bbRaw close lower upper t = 1 := by
  unfold bbRaw
  rw [hu, hl]
  simp

theorem bbPosition_eq_one_iff (close : List ℚ) (lower upper middle : List (Option ℚ))
    (t : ℕ) :
    bbPosition close lower upper middle t = 1 ↔
      (bbS2 close lower upper middle t = 1 ∧
        (t = 0 ∨ bbS2 close lower upper middle (t - 1) ≠ 1)) := by
  unfold bbPosition
  split_ifs with h1 h2
  · exact iff_of_true rfl h1
  · refine iff_of_false (by decide) h1
  · exact iff_of_false (by decide) h1

theorem bbPosition_eq_negone_iff (close : List ℚ) (lower upper middle : List (Option ℚ))
    (t : ℕ) :
    bbPosition close lower upper middle t = -1 ↔
      (bbS2 close lower upper middle t = -1 ∧
        (t = 0 ∨ bbS2 close lower upper middle (t - 1) ≠ -1)) := by
  unfold bbPosition
  split_ifs with h1 h2
  · refine iff_of_false (by decide) ?_
    intro hr
    have ha := h1.1
    have hb := hr.1
    omega
  · exact iff_of_true rfl h2
  · exact iff_of_false (by decide) h2

theorem bbPosition_ne_zero_iff (close : List ℚ) (lower upper middle : List (Option ℚ))
    (t : ℕ) :
    bbPosition close lower upper middle t ≠ 0 ↔
      (bbS2 close lower upper middle t ≠ 0 ∧
        (t = 0 ∨ bbS2 close lower upper middle t ≠
          bbS2 close lower upper middle (t - 1))) := by
  unfold bbPosition
  split_ifs with h1 h2
  · refine iff_of_true (by decide) ⟨by rw [h1.1]; decide, ?_⟩
    rcases h1.2 with hz | hp
    · exact Or.inl hz
    · exact Or.inr (by rw [h1.1]; exact fun he => hp he.symm)
  · refine iff_of_true (by decide) ⟨by rw [h2.1]; decide, ?_⟩
    rcases h2.2 with hz | hp
    · exact Or.inl hz
    · exact Or.inr (by rw [h2.1]; exact fun he => hp he.symm)
  · refine iff_of_false (by simp) ?_
    rintro ⟨hnz, hz | hp⟩
    · rcases bbS2_cases close lower upper middle t with hv | hv | hv
      · exact h1 ⟨hv, Or.inl hz⟩
      · exact h2 ⟨hv, Or.inl hz⟩
      · exact hnz hv
    · rcases bbS2_cases close lower upper middle t with hv | hv | hv
      · refine h1 ⟨hv, Or.inr ?_⟩
        rw [← hv]
        exact fun he => hp he.symm
      · refine h2 ⟨hv, Or.inr ?_⟩
        rw [← hv]
        exact fun he => hp he.symm
      · exact hnz hv

/-- Claim C8 (amended): for the BollingerMeanReversion strategy, per bar of
the annotated output the signal is computed in three vectorised passes, not
as a held state: a raw pass sets -1 where close ≥ upper band (overwriting the
+1 where both band conditions hold) and +1 where close ≤ lower band only; an
exit pass zeroes the bar when close ≥ middle band and the previous bar's raw
signal was +1, or when close ≤ middle band and the previous bar's first-pass
signal was -1; a bar strictly inside both bands always has signal 0 (a
previous non-zero signal is not held).  The entry event marker is non-zero
exactly on the bars where the non-zero final signal differs from the
immediately preceding bar's final signal (at bar 0 the comparison with the
missing previous value makes the `!=` mask true). -/
theorem c8_bollinger_amended (st : BollingerBands) (data : BarFrame)
    (hv : validate_data data = true) (t : ℕ) (ht : t < data.close.length) :
    st.generate_signals data = .ok (bollingerAnnotate st data.close) ∧
    (let close := data.close
     let bands := calculate_bollinger_bands close st.period st.std_dev
     let lower := bands.lower_band
     let upper := bands.upper_band
     let middle := bands.sma
     let sig : ℕ → Int := fun u => (bollingerAnnotate st close).signal.getD u 0
     let co : Int := (bollingerAnnotate st close).crossover.getD t 0
     sig t = bbS2 close lower upper middle t ∧
     (optGe close[t]? (upper.getD t none) = false →
       optLe close[t]? (lower.getD t none) = false → sig t = 0) ∧
     (optGe close[t]? (middle.getD t none) = true → 1 ≤ t →
       bbRaw close lower upper (t - 1) = 1 → sig t = 0) ∧
     (optLe close[t]? (middle.getD t none) = true → 1 ≤ t →
       bbS1 close lower upper middle (t - 1) = -1 → sig t = 0) ∧
     (¬(optGe close[t]? (middle.getD t none) = true ∧ 1 ≤ t ∧
          bbRaw close lower upper (t - 1) = 1) →
      ¬(optLe close[t]? (middle.getD t none) = true ∧ 1 ≤ t ∧
          bbS1 close lower upper middle (t - 1) = -1) →
      (optGe close[t]? (upper.getD t none) = true → sig t = -1) ∧
      (optGe close[t]? (upper.getD t none) = false →
        optLe close[t]? (lower.getD t none) = true → sig t = 1)) ∧
     (co = 1 ↔ sig t = 1 ∧ (t = 0 ∨ sig (t - 1) ≠ 1)) ∧
     (co = -1 ↔ sig t = -1 ∧ (t = 0 ∨ sig (t - 1) ≠ -1)) ∧
     (co ≠ 0 ↔ sig t ≠ 0 ∧ (t = 0 ∨ sig t ≠ sig (t - 1)))) := by
  have hok : st.generate_signals data = .ok (bollingerAnnotate st data.close) := by
    simp [BollingerBands.generate_signals, hv]
  refine ⟨hok, ?_⟩
  intro close bands lower upper middle sig co
  have hst : sig t = bbS2 close lower upper middle t := rangeMap_getD _ _ _ ht
  have hsp : sig (t - 1) = bbS2 close lower upper middle (t - 1) :=
    rangeMap_getD _ _ _ (lt_of_le_of_lt (Nat.sub_le t 1) ht)
  have hco : co = bbPosition close lower upper middle t := rangeMap_getD _ _ _ ht
  refine ⟨hst, ?_, ?_, ?_, ?_, ?_, ?_, ?_⟩
  · intro hu hl
    rw [hst]
    exact bbS2_inside_zero close lower upper middle t hu hl
  · intro hm h1 hr
    rw [hst]
    exact bbS2_reset1_zero close lower upper middle t ⟨hm, h1, hr⟩
  · intro hm h1 hs1
    rw [hst]
    exact bbS2_reset2_zero close lower upper middle t ⟨hm, h1, hs1⟩
  · intro hn1 hn2
    have hb := bbS2_noreset close lower upper middle t hn1 hn2
    constructor
    · intro hu
      rw [hst, hb]
      exact bbRaw_upper close lower upper t hu
    · intro hu hl
      rw [hst, hb]
      exact bbRaw_lower close lower upper t hu hl
  · rw [hco, hst, hsp]
    exact bbPosition_eq_one_iff close lower upper middle t
  · rw [hco, hst, hsp]
    exact bbPosition_eq_negone_iff close lower upper middle t
  · rw [hco, hst, hsp]
    exact bbPosition_ne_zero_iff close lower upper middle t

/-- Witness for the amended claim C8 at a concrete input: BollingerBands(2, 2)
on the closes 100, 100, evaluated at bar 1. -/
theorem c8_bollinger_amended_witness :
    validate_data (BarFrame.mk ["open", "high", "low", "close", "volume"] [100, 100]) = true ∧
    1 < ([(100 : ℚ), 100] : List ℚ).length ∧
    ((BollingerBands.mk 2 2).generate_signals
        (BarFrame.mk ["open", "high", "low", "close", "volume"] [100, 100])
      = .ok (bollingerAnnotate (BollingerBands.mk 2 2) [100, 100]) ∧
     (let close := [(100 : ℚ), 100]
      let bands := calculate_bollinger_bands close 2 2
      let lower := bands.lower_band
      let upper := bands.upper_band
      let middle := bands.sma
      let sig : ℕ → Int := fun u =>
        (bollingerAnnotate (BollingerBands.mk 2 2) close).signal.getD u 0
      let co : Int :=
        (bollingerAnnotate (BollingerBands.mk 2 2) close).crossover.getD 1 0
      sig 1 = bbS2 close lower upper middle 1 ∧
      (optGe close[1]? (upper.getD 1 none) = false →
        optLe close[1]? (lower.getD 1 none) = false → sig 1 = 0) ∧
      (optGe close[1]? (middle.getD 1 none) = true → 1 ≤ 1 →
        bbRaw close lower upper (1 - 1) = 1 → sig 1 = 0) ∧
      (optLe close[1]? (middle.getD 1 none) = true → 1 ≤ 1 →
        bbS1 close lower upper middle (1 - 1) = -1 → sig 1 = 0) ∧
      (¬(optGe close[1]? (middle.getD 1 none) = true ∧ 1 ≤ 1 ∧
           bbRaw close lower upper (1 - 1) = 1) →
       ¬(optLe close[1]? (middle.getD 1 none) = true ∧ 1 ≤ 1 ∧
           bbS1 close lower upper middle (1 - 1) = -1) →
       (optGe close[1]? (upper.getD 1 none) = true → sig 1 = -1) ∧
       (optGe close[1]? (upper.getD 1 none) = false →
         optLe close[1]? (lower.getD 1 none) = true → sig 1 = 1)) ∧
      (co = 1 ↔ sig 1 = 1 ∧ (1 = 0 ∨ sig (1 - 1) ≠ 1)) ∧
      (co = -1 ↔ sig 1 = -1 ∧ (1 = 0 ∨ sig (1 - 1) ≠ -1)) ∧
      (co ≠ 0 ↔ sig 1 ≠ 0 ∧ (1 = 0 ∨ sig 1 ≠ sig (1 - 1))))) :=
  ⟨by decide, by decide,
    c8_bollinger_amended (BollingerBands.mk 2 2)
      (BarFrame.mk ["open", "high", "low", "close", "volume"] [100, 100])
      (by decide) 1 (by decide)⟩

/-! ### Backtest Simulator (backtesting_engine.py) -/

/-- models/trade.py `OrderType`. -/
inductive OrderType
  | BUY
  | SELL
deriving DecidableEq, Repr

/-- One row of the signal-annotated frame as the engine reads it: the close
price and the `crossover` event marker (`row.get('crossover', 0)`). -/
structure BtRow where
  close : ℚ
  crossover : Int
deriving DecidableEq, Repr

/-- A trade dict appended by the engine; the `type` key always equals the
`order_type` key, so a single field models both, and every trade carries a
`pnl` key (0 on a BUY). -/
structure BTrade where
  symbol : String
  order_type : OrderType
  price : ℚ
  quantity : ℚ
  commission : ℚ
  total : ℚ
  cash_after : ℚ
  pnl : ℚ
deriving DecidableEq, Repr

/-- One entry of the engine's equity curve (timestamp omitted). -/
structure EquityPoint where
  portfolio_value : ℚ
  cash : ℚ
  returns : ℚ
deriving DecidableEq, Repr

/-- The engine's mutable state: cash, the single `'STOCK'` position
(`positions.get('STOCK', 0)`), the trade log and the equity curve. -/
structure BtState where
  cash : ℚ
  position : ℚ
  trades : List BTrade
  equity_curve : List EquityPoint
deriving DecidableEq, Repr

namespace BacktestingEngine

/-- backtesting_engine.py `_execute_trade` (the BUY path, lines 79-103):
invest 90% of cash, charge commission on the investment, buy at the bar's
close; skip when the computed quantity is not positive or cash cannot cover
the total cost. -/
def execute_trade (rate : ℚ) (s : BtState) (price : ℚ) : BtState :=
  let investment := s.cash * (9 / 10)
  let commission := investment * rate
  let quantity := (investment - commission) / price
  if quantity ≤ 0 then s
  else
    let total_cost := price * quantity + commission
    if s.cash ≥ total_cost then
      let trade : BTrade :=
        { symbol := "STOCK", order_type := OrderType.BUY, price := price,
          quantity := quantity, commission := commission, total := total_cost,
          cash_after := s.cash - total_cost, pnl := 0 }
      { s with cash := s.cash - total_cost,
               position := s.position + quantity,
               trades := s.trades ++ [trade] }
    else s

/-- backtesting_engine.py `_execute_sell` (lines 105-132): sell the entire
held quantity at the bar's close, commission proportional to proceeds; pnl
uses the price of the most recent BUY in the log (or the sell price itself
when there is none). -/
def execute_sell (rate : ℚ) (s : BtState) (price : ℚ) : BtState :=
  let quantity := s.position
  if quantity ≤ 0 then s
  else
    let commission := price * quantity * rate
    let total_proceed := price * quantity - commission
    let last_buy := s.trades.reverse.find? (fun t =>
      t.symbol == "STOCK" && t.order_type == OrderType.BUY)
    let buy_price := match last_buy with
      | some t => t.price
      | none => price
    let pnl := (price - buy_price) * quantity - commission
    let trade : BTrade :=
      { symbol := "STOCK", order_type := OrderType.SELL, price := price,
        quantity := quantity, commission := commission, total := total_proceed,
        cash_after := s.cash + total_proceed, pnl := pnl }
    { s with cash := s.cash + total_proceed, position := 0,
             trades := s.trades ++ [trade] }

/-- The per-bar dispatch of `run` (lines 46-49): BUY on marker 1, SELL on
marker -1, otherwise no trade. -/
def tradePhase (rate : ℚ) (s : BtState) (row : BtRow) : BtState :=
  if row.crossover = 1 then execute_trade rate s row.close
  else if row.crossover = -1 then execute_sell rate s row.close
  else s

/-- One loop iteration of `run` (lines 41-57): the optional trade followed by
the unconditional equity-curve append with `cash + position * close`. -/
def step (initial_capital rate : ℚ) (s : BtState) (row : BtRow) : BtState :=
  let s1 := tradePhase rate s row
  let v := s1.cash + s1.position * row.close
  { s1 with equity_curve := s1.equity_curve ++
      [{ portfolio_value := v, cash := s1.cash,
         returns := (v - initial_capital) / initial_capital * 100 }] }

/-- The engine state reset at the top of `run` (lines 33-37). -/
def initState (initial_capital : ℚ) : BtState :=
  { cash := initial_capital, position := 0, trades := [], equity_curve := [] }

/-- backtesting_engine.py `run`, applied to an already-annotated row
sequence: a left fold of `step` over the bars in order. -/
def run (initial_capital rate : ℚ) (rows : List BtRow) : BtState :=
  rows.foldl (step initial_capital rate) (initState initial_capital)

/-- `_calculate_metrics` line 153: trades with `pnl > 0`. -/
def winning_trades (trades : List BTrade) : ℕ :=
  (trades.filter (fun t => decide (0 < t.pnl))).length

/-- `_calculate_metrics` line 154: trades with `pnl < 0`. -/
def losing_trades (trades : List BTrade) : ℕ :=
  (trades.filter (fun t => decide (t.pnl < 0))).length

/-- `_calculate_metrics` line 155: the trades carrying a `'pnl'` key; every
trade dict the engine builds carries one, so the filter keeps everything. -/
def pnl_trades (trades : List BTrade) : List BTrade :=
  trades.filter (fun _ => true)

/-- `_calculate_metrics` line 156: winning trades over pnl-carrying trades. -/
def win_rate (trades : List BTrade) : ℚ :=
  if 0 < (pnl_trades trades).length then
    ((winning_trades trades : ℚ) / ((pnl_trades trades).length : ℚ)) * 100
  else 0

/-- The closing trades of a log (those with direction SELL). -/
def sell_trades (trades : List BTrade) : List BTrade :=
  trades.filter (fun t => decide (t.order_type = OrderType.SELL))

end BacktestingEngine

namespace BacktestingEngine

theorem execute_trade_equity (rate : ℚ) (s : BtState) (price : ℚ) :
    (execute_trade rate s price).equity_curve = s.equity_curve := by
  unfold execute_trade
  dsimp only
  split_ifs <;> rfl

theorem execute_sell_equity (rate : ℚ) (s : BtState) (price : ℚ) :
    (execute_sell rate s price).equity_curve = s.equity_curve := by
  unfold execute_sell
  dsimp only
  split_ifs <;> rfl

theorem tradePhase_equity (rate : ℚ) (s : BtState) (row : BtRow) :
    (tradePhase rate s row).equity_curve = s.equity_curve := by
  unfold tradePhase
  split_ifs
  · exact execute_trade_equity rate s row.close
  · exact execute_sell_equity rate s row.close
  · rfl

theorem step_equity (initial_capital rate : ℚ) (s : BtState) (row : BtRow) :
    (step initial_capital rate s row).equity_curve
      = s.equity_curve ++
        [{ portfolio_value := (tradePhase rate s row).cash
             + (tradePhase rate s row).position * row.close,
           cash := (tradePhase rate s row).cash,
           returns := ((tradePhase rate s row).cash
             + (tradePhase rate s row).position * row.close - initial_capital)
             / initial_capital * 100 }] := by
  show (tradePhase rate s row).equity_curve ++ _ = _
  rw [tradePhase_equity]

theorem foldl_step_equity_length (initial_capital rate : ℚ) (rows : List BtRow) :
    ∀ s : BtState,
      (rows.foldl (step initial_capital rate) s).equity_curve.length
        = s.equity_curve.length + rows.length := by
  induction rows with
  | nil => intro s; simp
  | cons r rs ih =>
    intro s
    rw [List.foldl_cons, ih, step_equity]
    simp
    omega

/-- Claim C6: for every backtest run, the equity curve has exactly one entry
per bar fed to the simulator, and each step appends exactly one EquityPoint
whose portfolio value is `cash + position * close` of the post-trade state,
whether or not a trade occurred on that bar. -/
theorem c6_equity_curve (initial_capital rate : ℚ) (rows : List BtRow) :
    (run initial_capital rate rows).equity_curve.length = rows.length ∧
    ∀ (s : BtState) (row : BtRow),
      (step initial_capital rate s row).equity_curve
        = s.equity_curve ++
          [{ portfolio_value := (tradePhase rate s row).cash
               + (tradePhase rate s row).position * row.close,
             cash := (tradePhase rate s row).cash,
             returns := ((tradePhase rate s row).cash
               + (tradePhase rate s row).position * row.close - initial_capital)
               / initial_capital * 100 }] := by
  constructor
  · rw [run, foldl_step_equity_length]
    simp [initState]
  · intro s row
    exact step_equity initial_capital rate s row

end BacktestingEngine

namespace BacktestingEngine

theorem execute_trade_preserves (rate : ℚ) (s : BtState) (price : ℚ)
    (hpr : 0 < price) (h1 : 0 ≤ s.cash) (h2 : 0 ≤ s.position)
    (h3 : 1 < rate → s.position = 0) :
    0 ≤ (execute_trade rate s price).cash ∧
    0 ≤ (execute_trade rate s price).position ∧
    (1 < rate → (execute_trade rate s price).position = 0) := by
  unfold execute_trade
  dsimp only
  split_ifs with hq hc
  · exact ⟨h1, h2, h3⟩
  · push_neg at hq
    refine ⟨by dsimp only; linarith [hc], by dsimp only; linarith [hq, h2], ?_⟩
    intro hrate
    exfalso
    have hinv : 0 ≤ s.cash * (9 / 10) := by nlinarith
    have hnum : s.cash * (9 / 10) - s.cash * (9 / 10) * rate ≤ 0 := by nlinarith
    have : (s.cash * (9 / 10) - s.cash * (9 / 10) * rate) / price ≤ 0 :=
      div_nonpos_of_nonpos_of_nonneg hnum hpr.le
    linarith [hq]
  · exact ⟨h1, h2, h3⟩

theorem execute_sell_preserves (rate : ℚ) (s : BtState) (price : ℚ)
    (hpr : 0 < price) (h1 : 0 ≤ s.cash) (h2 : 0 ≤ s.position)
    (h3 : 1 < rate → s.position = 0) :
    0 ≤ (execute_sell rate s price).cash ∧
    0 ≤ (execute_sell rate s price).position ∧
    (1 < rate → (execute_sell rate s price).position = 0) := by
  unfold execute_sell
  dsimp only
  split_ifs with hq
  · exact ⟨h1, h2, h3⟩
  · push_neg at hq
    have hrate_le : rate ≤ 1 := by
      by_contra hgt
      push_neg at hgt
      have := h3 hgt
      linarith
    refine ⟨?_, le_refl 0, fun _ => rfl⟩
    dsimp only
    nlinarith [mul_nonneg (mul_pos hpr hq).le (sub_nonneg.mpr hrate_le)]

theorem step_preserves (initial_capital rate : ℚ) (s : BtState) (row : BtRow)
    (hpr : 0 < row.close) (h1 : 0 ≤ s.cash) (h2 : 0 ≤ s.position)
    (h3 : 1 < rate → s.position = 0) :
    0 ≤ (step initial_capital rate s row).cash ∧
    0 ≤ (step initial_capital rate s row).position ∧
    (1 < rate → (step initial_capital rate s row).position = 0) := by
  have hc : (step initial_capital rate s row).cash = (tradePhase rate s row).cash := rfl
  have hp : (step initial_capital rate s row).position = (tradePhase rate s row).position := rfl
  rw [hc, hp]
  unfold tradePhase
  split_ifs
  · exact execute_trade_preserves rate s row.close hpr h1 h2 h3
  · exact execute_sell_preserves rate s row.close hpr h1 h2 h3
  · exact ⟨h1, h2, h3⟩

theorem foldl_step_preserves (initial_capital rate : ℚ) (l : List BtRow) :
    ∀ s : BtState, (∀ r ∈ l, 0 < r.close) →
      0 ≤ s.cash → 0 ≤ s.position → (1 < rate → s.position = 0) →
      0 ≤ (l.foldl (step initial_capital rate) s).cash ∧
      0 ≤ (l.foldl (step initial_capital rate) s).position ∧
      (1 < rate → (l.foldl (step initial_capital rate) s).position = 0) := by
  induction l with
  | nil => intro s _ h1 h2 h3; exact ⟨h1, h2, h3⟩
  | cons r rs ih =>
    intro s hl h1 h2 h3
    have hr : 0 < r.close := hl r (List.mem_cons_self r rs)
    have hs := step_preserves initial_capital rate s r hr h1 h2 h3
    rw [List.foldl_cons]
    exact ih _ (fun x hx => hl x (List.mem_cons_of_mem _ hx)) hs.1 hs.2.1 hs.2.2

/-- Claim C5 (amended): for every trade sequence produced by the Backtest
Simulator from a bar sequence whose close prices are all positive, starting
from a non-negative initial capital, the cash balance and the held position
quantity are non-negative after every processed prefix of bars (hence after
each executed trade). -/
theorem c5_amended (initial_capital rate : ℚ) (rows : List BtRow)
    (hcap : 0 ≤ initial_capital) (hrows : ∀ r ∈ rows, 0 < r.close) (n : ℕ) :
    0 ≤ (run initial_capital rate (rows.take n)).cash ∧
    0 ≤ (run initial_capital rate (rows.take n)).position := by
  have hr' : ∀ r ∈ rows.take n, 0 < r.close :=
    fun r hr => hrows r (List.take_subset n rows hr)
  have h := foldl_step_preserves initial_capital rate (rows.take n)
    (initState initial_capital) hr' hcap (le_refl 0) (fun _ => rfl)
  exact ⟨h.1, h.2.1⟩

/-- Claim C5, counterexample: on the bar sequence BUY at close 100 then SELL
at close -50 (the input contract of the spec only requires finite closes),
with initial capital 1000 and zero commission, the cash balance after the
SELL trade is -350, which is negative. -/
theorem c5_counterexample :
    (run 1000 0 [BtRow.mk 100 1, BtRow.mk (-50) (-1)]).cash = -350 ∧
    (run 1000 0 [BtRow.mk 100 1, BtRow.mk (-50) (-1)]).cash < 0 := by
  have h : (run 1000 0 [BtRow.mk 100 1, BtRow.mk (-50) (-1)]).cash = -350 := by
    norm_num [run, initState, step, tradePhase, execute_trade, execute_sell, List.find?]
  exact ⟨h, by rw [h]; norm_num⟩

/-- Witness for the amended claim C5: two positive-close bars, a BUY and a
SELL, with initial capital 1000 and commission rate 1/1000, after both bars. -/
theorem c5_amended_witness :
    (0 : ℚ) ≤ 1000 ∧
    (∀ r ∈ [BtRow.mk 100 1, BtRow.mk 50 (-1)], 0 < r.close) ∧
    (0 ≤ (run 1000 (1 / 1000) ([BtRow.mk 100 1, BtRow.mk 50 (-1)].take 2)).cash ∧
     0 ≤ (run 1000 (1 / 1000) ([BtRow.mk 100 1, BtRow.mk 50 (-1)].take 2)).position) :=
  ⟨by norm_num, by simp, c5_amended 1000 (1 / 1000) [BtRow.mk 100 1, BtRow.mk 50 (-1)]
    (by norm_num) (by simp) 2⟩

end BacktestingEngine

namespace BacktestingEngine

/-- Claim C2, counterexample: with initial capital 1000 and zero commission,
after the bar (close 100, marker +1) the state holds a position of 9 (not
Idle), yet a second bar with marker +1 executes another BUY: the final trade
log is two BUY trades.  The engine never checks for an open position before
buying, so a BUY does not execute "only when the state is Idle". -/
theorem c2_counterexample :
    0 < (run 1000 0 [BtRow.mk 100 1]).position ∧
    (run 1000 0 [BtRow.mk 100 1, BtRow.mk 100 1]).trades.map (fun t => t.order_type)
      = [OrderType.BUY, OrderType.BUY] := by
  constructor
  · norm_num [run, initState, step, tradePhase, execute_trade, execute_sell]
  · norm_num [run, initState, step, tradePhase, execute_trade, execute_sell]

/-- Claim C2 (amended): for every bar whose event marker is +1 the engine
calls its BUY routine regardless of whether a position is already open; the
routine invests `0.9 * cash`, charges `commission = investment * rate`, buys
`(investment - commission) / close` units at the bar's close adding them to
the running position, and when the resulting quantity is ≤ 0 the bar is
skipped with no trade recorded and cash and position unchanged.  The internal
`cash >= total_cost` guard is redundant whenever the close price is positive
and cash is non-negative, because the total cost always equals the
investment, which is 9/10 of cash. -/
theorem c2_buy_amended (rate price : ℚ) (s : BtState) :
    (∀ row : BtRow, row.crossover = 1 →
      tradePhase rate s row = execute_trade rate s row.close) ∧
    (let investment := s.cash * (9 / 10)
     let commission := investment * rate
     let quantity := (investment - commission) / price
     let total_cost := price * quantity + commission
     let trade : BTrade :=
       { symbol := "STOCK", order_type := OrderType.BUY, price := price,
         quantity := quantity, commission := commission, total := total_cost,
         cash_after := s.cash - total_cost, pnl := 0 }
     (quantity ≤ 0 → execute_trade rate s price = s) ∧
     (0 < quantity → s.cash < total_cost → execute_trade rate s price = s) ∧
     (0 < quantity → total_cost ≤ s.cash →
       execute_trade rate s price =
         { s with cash := s.cash - total_cost,
                  position := s.position + quantity,
                  trades := s.trades ++ [trade] }) ∧
     (0 < price → 0 ≤ s.cash → total_cost ≤ s.cash)) := by
  refine ⟨?_, ?_, ?_, ?_, ?_⟩
  · intro row hrow
    unfold tradePhase
    rw [if_pos hrow]
  · intro hq
    unfold execute_trade
    dsimp only
    rw [if_pos hq]
  · intro hq hlt
    unfold execute_trade
    dsimp only
    split_ifs with h1 h2
    · rfl
    · exfalso; exact absurd h2 (not_le.mpr hlt)
    · rfl
  · intro hq hle
    unfold execute_trade
    dsimp only
    rw [if_neg (not_le.mpr hq), if_pos hle]
  · intro hp h0
    have hpne : price ≠ 0 := ne_of_gt hp
    have key : price * ((s.cash * (9 / 10) - s.cash * (9 / 10) * rate) / price)
        = s.cash * (9 / 10) - s.cash * (9 / 10) * rate := by
      field_simp
      ring
    rw [key]
    linarith

/-- Witness for the amended claim C2 at rate 0, price 100, and the freshly
initialised state with capital 1000. -/
theorem c2_buy_amended_witness :
    (∀ row : BtRow, row.crossover = 1 →
      tradePhase 0 (initState 1000) row = execute_trade 0 (initState 1000) row.close) ∧
    (let investment := (initState 1000).cash * (9 / 10)
     let commission := investment * 0
     let quantity := (investment - commission) / 100
     let total_cost := 100 * quantity + commission
     let trade : BTrade :=
       { symbol := "STOCK", order_type := OrderType.BUY, price := 100,
         quantity := quantity, commission := commission, total := total_cost,
         cash_after := (initState 1000).cash - total_cost, pnl := 0 }
     (quantity ≤ 0 → execute_trade 0 (initState 1000) 100 = initState 1000) ∧
     (0 < quantity → (initState 1000).cash < total_cost →
       execute_trade 0 (initState 1000) 100 = initState 1000) ∧
     (0 < quantity → total_cost ≤ (initState 1000).cash →
       execute_trade 0 (initState 1000) 100 =
         { initState 1000 with cash := (initState 1000).cash - total_cost,
                               position := (initState 1000).position + quantity,
                               trades := (initState 1000).trades ++ [trade] }) ∧
     (0 < (100 : ℚ) → 0 ≤ (initState 1000).cash → total_cost ≤ (initState 1000).cash)) :=
  c2_buy_amended 0 100 (initState 1000)

end BacktestingEngine

namespace BacktestingEngine

theorem tradePhase_trades_cases (rate : ℚ) (s : BtState) (row : BtRow) :
    (tradePhase rate s row).trades = s.trades ∨
    ∃ tr, (tradePhase rate s row).trades = s.trades ++ [tr] ∧
      (tr.order_type = OrderType.BUY → tr.pnl = 0) := by
  unfold tradePhase execute_trade execute_sell
  dsimp only
  split_ifs <;> first | exact Or.inl rfl | exact Or.inr ⟨_, rfl, by simp⟩

theorem trades_buy_pnl_zero (initial_capital rate : ℚ) (rows : List BtRow) :
    ∀ t ∈ (run initial_capital rate rows).trades,
      t.order_type = OrderType.BUY → t.pnl = 0 := by
  suffices h : ∀ (l : List BtRow) (s : BtState),
      (∀ t ∈ s.trades, t.order_type = OrderType.BUY → t.pnl = 0) →
      ∀ t ∈ (l.foldl (step initial_capital rate) s).trades,
        t.order_type = OrderType.BUY → t.pnl = 0 by
    refine h rows (initState initial_capital) ?_
    intro t ht
    simp [initState] at ht
  intro l
  induction l with
  | nil => intro s hs; exact hs
  | cons r rs ih =>
    intro s hs
    rw [List.foldl_cons]
    refine ih _ ?_
    intro t ht hbuy
    have hstep : (step initial_capital rate s r).trades = (tradePhase rate s r).trades := rfl
    rw [hstep] at ht
    rcases tradePhase_trades_cases rate s r with hc | ⟨tr, hc, htr⟩
    · rw [hc] at ht
      exact hs t ht hbuy
    · rw [hc] at ht
      rcases List.mem_append.mp ht with hmem | hmem
      · exact hs t hmem hbuy
      · have : t = tr := by simpa using hmem
        subst this
        exact htr hbuy

/-- Claim C3, counterexample: with initial capital 1000 and zero commission,
the bars (100, +1) and (200, -1) produce one BUY (pnl 0) and one winning
SELL (pnl 900).  The code's win_rate is 50 because its denominator counts
every trade carrying a `'pnl'` key — and the BUY carries `pnl: 0` — whereas
the claimed formula, winning closing trades over closing (SELL) trades × 100,
would give 100. -/
theorem c3_counterexample :
    winning_trades (run 1000 0 [BtRow.mk 100 1, BtRow.mk 200 (-1)]).trades = 1 ∧
    losing_trades (run 1000 0 [BtRow.mk 100 1, BtRow.mk 200 (-1)]).trades = 0 ∧
    (sell_trades (run 1000 0 [BtRow.mk 100 1, BtRow.mk 200 (-1)]).trades).length = 1 ∧
    win_rate (run 1000 0 [BtRow.mk 100 1, BtRow.mk 200 (-1)]).trades = 50 ∧
    win_rate (run 1000 0 [BtRow.mk 100 1, BtRow.mk 200 (-1)]).trades ≠
      (winning_trades (run 1000 0 [BtRow.mk 100 1, BtRow.mk 200 (-1)]).trades : ℚ)
        / ((sell_trades (run 1000 0 [BtRow.mk 100 1, BtRow.mk 200 (-1)]).trades).length : ℚ)
        * 100 := by
  have hrun : (run 1000 0 [BtRow.mk 100 1, BtRow.mk 200 (-1)]).trades =
      [{ symbol := "STOCK", order_type := OrderType.BUY, price := 100, quantity := 9,
         commission := 0, total := 900, cash_after := 100, pnl := 0 },
       { symbol := "STOCK", order_type := OrderType.SELL, price := 200, quantity := 9,
         commission := 0, total := 1800, cash_after := 1900, pnl := 900 }] := by
    norm_num [run, initState, step, tradePhase, execute_trade, execute_sell, List.find?]
  rw [hrun]
  norm_num [winning_trades, losing_trades, sell_trades, win_rate, pnl_trades,
    List.filter, show decide (OrderType.BUY = OrderType.SELL) = false from rfl,
    show decide (OrderType.SELL = OrderType.SELL) = true from rfl]

/-- Claim C3 (amended): winning_trades and losing_trades count the trades
with pnl strictly above, respectively below, zero (a BUY, whose pnl is always
0, is never counted in either), but the win_rate denominator is the number of
trades carrying a `'pnl'` key, which is every trade in the log, BUY trades
included: win_rate = winning trades / all trades × 100, and 0 when the trade
log is empty. -/
theorem c3_winrate_amended (trades : List BTrade) (initial_capital rate : ℚ)
    (rows : List BtRow) :
    pnl_trades trades = trades ∧
    win_rate trades = (if trades = [] then 0
      else (winning_trades trades : ℚ) / (trades.length : ℚ) * 100) ∧
    (∀ t ∈ (run initial_capital rate rows).trades,
      t.order_type = OrderType.BUY → t.pnl = 0) := by
  have hp : pnl_trades trades = trades := by
    simp [pnl_trades]
  refine ⟨hp, ?_, trades_buy_pnl_zero initial_capital rate rows⟩
  unfold win_rate
  rw [hp]
  cases trades with
  | nil => simp
  | cons t ts => simp

/-- Witness for the amended claim C3 at a concrete input: the two-trade log
produced by the run of the C3 counterexample, for which win_rate is 50. -/
theorem c3_winrate_amended_witness :
    pnl_trades (run 1000 0 [BtRow.mk 100 1, BtRow.mk 200 (-1)]).trades
      = (run 1000 0 [BtRow.mk 100 1, BtRow.mk 200 (-1)]).trades ∧
    win_rate (run 1000 0 [BtRow.mk 100 1, BtRow.mk 200 (-1)]).trades
      = (if (run 1000 0 [BtRow.mk 100 1, BtRow.mk 200 (-1)]).trades = [] then 0
         else (winning_trades (run 1000 0 [BtRow.mk 100 1, BtRow.mk 200 (-1)]).trades : ℚ)
           / (((run 1000 0 [BtRow.mk 100 1, BtRow.mk 200 (-1)]).trades.length : ℚ)) * 100) ∧
    (∀ t ∈ (run 1000 0 [BtRow.mk 100 1, BtRow.mk 200 (-1)]).trades,
      t.order_type = OrderType.BUY → t.pnl = 0) :=
  c3_winrate_amended (run 1000 0 [BtRow.mk 100 1, BtRow.mk 200 (-1)]).trades 1000 0
    [BtRow.mk 100 1, BtRow.mk 200 (-1)]

end BacktestingEngine

namespace BacktestingEngine

/-- pandas `pct_change()` over the portfolio-value column: NaN at index 0,
then `cur / prev - 1`. -/
def pct_change (l : List ℚ) : List (Option ℚ) :=
  match l with
  | [] => []
  | _ :: xs => none :: List.zipWith (fun cur prev => some (cur / prev - 1)) xs l

/-- The non-NaN entries of a column (pandas skipna). -/
def validVals (l : List (Option ℚ)) : List ℚ := l.filterMap id

/-- pandas `Series.mean()`: the mean of the non-NaN entries, NaN when there
are none. -/
def seriesMean (l : List (Option ℚ)) : Option ℚ :=
  let v := validVals l
  if v.length = 0 then none else some (v.sum / (v.length : ℚ))

/-- The square of pandas `Series.std()` (`ddof=1`): the sample variance of
the non-NaN entries, NaN when there are fewer than two. -/
def seriesVar (l : List (Option ℚ)) : Option ℚ :=
  let v := validVals l
  if v.length < 2 then none
  else some (((v.map (fun x => (x - v.sum / (v.length : ℚ)) ^ 2)).sum)
    / ((v.length : ℚ) - 1))

/-- The value of the engine's Sharpe ratio, kept symbolic in the irrational
factor: `val m v` denotes the real number `(m / sqrt v) * sqrt 252`, `zero`
denotes 0, and `nan` the float NaN that `(mean / std) * sqrt(252)` produces
when the standard deviation itself is NaN. -/
inductive SharpeVal
  | nan
  | zero
  | val (mean variance : ℚ)
deriving DecidableEq, Repr

/-- `_calculate_metrics` lines 158-165: daily returns are the pct_change of
the portfolio values; when the curve has more than one point, the ratio is
`(mean / std) * sqrt 252` unless `std != 0` fails.  A NaN std (exactly two
equity points: a single return, whose sample std is undefined) passes the
`std != 0` test in Python and propagates NaN. -/
def sharpe_of (equity : List ℚ) : SharpeVal :=
  if 1 < equity.length then
    match seriesVar (pct_change equity), seriesMean (pct_change equity) with
    | none, _ => SharpeVal.nan
    | some _, none => SharpeVal.nan
    | some v, some m => if v = 0 then SharpeVal.zero else SharpeVal.val m v
  else SharpeVal.zero

/-- The spec's daily returns: the percent change of consecutive equity-curve
values, written directly as a plain list. -/
def specDailyReturns (l : List ℚ) : List ℚ :=
  match l with
  | [] => []
  | _ :: xs => List.zipWith (fun cur prev => cur / prev - 1) xs l

/-- The spec's mean of a return series. -/
def specMean (l : List ℚ) : ℚ := l.sum / (l.length : ℚ)

/-- The spec's sample variance of a return series (the square of the
standard deviation the spec's formula divides by). -/
def specVariance (l : List ℚ) : ℚ :=
  ((l.map (fun x => (x - specMean l) ^ 2)).sum) / ((l.length : ℚ) - 1)

theorem filterMap_id_zipWith_some (f : ℚ → ℚ → ℚ) (xs ys : List ℚ) :
    (List.zipWith (fun a b => some (f a b)) xs ys).filterMap id
      = List.zipWith f xs ys := by
  induction xs generalizing ys with
  | nil => simp
  | cons x xs ih =>
    cases ys with
    | nil => simp
    | cons y ys => simp [ih]

theorem validVals_pct_change (equity : List ℚ) :
    validVals (pct_change equity) = specDailyReturns equity := by
  cases equity with
  | nil => rfl
  | cons x xs =>
    simp only [pct_change, specDailyReturns, validVals, List.filterMap_cons]
    exact filterMap_id_zipWith_some _ xs (x :: xs)

theorem length_specDailyReturns (equity : List ℚ) :
    (specDailyReturns equity).length = equity.length - 1 := by
  cases equity with
  | nil => rfl
  | cons x xs => simp [specDailyReturns]

theorem seriesVar_some_len (l : List (Option ℚ)) (v : ℚ)
    (h : seriesVar l = some v) : 2 ≤ (validVals l).length := by
  unfold seriesVar at h
  dsimp only at h
  split_ifs at h with hc
  omega

theorem seriesVar_some_eq (l : List (Option ℚ)) (v : ℚ)
    (h : seriesVar l = some v) :
    v = (((validVals l).map
        (fun x => (x - (validVals l).sum / ((validVals l).length : ℚ)) ^ 2)).sum)
      / (((validVals l).length : ℚ) - 1) := by
  unfold seriesVar at h
  dsimp only at h
  split_ifs at h with hc
  exact (Option.some_inj.mp h).symm

/-- Claim C7: the backtest Sharpe ratio equals mean(daily_return) /
stddev(daily_return) × √252, where daily_return is the percent change of
consecutive equity-curve values and the standard deviation is the sample
standard deviation pandas computes; it is exactly 0 whenever the equity
curve has fewer than 2 points or that standard deviation is 0.  (`SharpeVal.val m v`
denotes the value `(m / sqrt v) * sqrt 252`; the hypothesis that equity
values are non-zero keeps the rational embedding of `pct_change` faithful to
the floating-point division of the source.) -/
theorem c7_sharpe (equity : List ℚ) (hnz : ∀ e ∈ equity, e ≠ 0) :
    (equity.length < 2 → sharpe_of equity = SharpeVal.zero) ∧
    (∀ v, seriesVar (pct_change equity) = some v → v = 0 →
      sharpe_of equity = SharpeVal.zero) ∧
    (∀ v, seriesVar (pct_change equity) = some v → v ≠ 0 →
      sharpe_of equity = SharpeVal.val (specMean (specDailyReturns equity)) v ∧
      v = specVariance (specDailyReturns equity)) := by
  have hlen_of_var : ∀ v, seriesVar (pct_change equity) = some v → 1 < equity.length := by
    intro v hv
    have h2 := seriesVar_some_len _ _ hv
    rw [validVals_pct_change, length_specDailyReturns] at h2
    omega
  have hmean : ∀ v, seriesVar (pct_change equity) = some v →
      seriesMean (pct_change equity) = some (specMean (specDailyReturns equity)) := by
    intro v hv
    have h2 := seriesVar_some_len _ _ hv
    unfold seriesMean
    dsimp only
    rw [validVals_pct_change] at h2 ⊢
    rw [if_neg (by omega)]
    rfl
  refine ⟨?_, ?_, ?_⟩
  · intro h
    unfold sharpe_of
    rw [if_neg (by omega)]
  · intro v hv h0
    unfold sharpe_of
    rw [if_pos (hlen_of_var v hv), hv, hmean v hv]
    dsimp only
    rw [if_pos h0]
  · intro v hv h0
    constructor
    · unfold sharpe_of
      rw [if_pos (hlen_of_var v hv), hv, hmean v hv]
      dsimp only
      rw [if_neg h0]
    · have he := seriesVar_some_eq _ _ hv
      rw [validVals_pct_change] at he
      exact he

/-- Witness for claim C7 at a concrete input: the equity curve 100, 110, 121
has constant daily returns 1/10, so the sample variance is 0 and the Sharpe
ratio is the zero value. -/
theorem c7_sharpe_witness :
    (∀ e ∈ [(100 : ℚ), 110, 121], e ≠ 0) ∧
    (([(100 : ℚ), 110, 121].length < 2 →
       sharpe_of [(100 : ℚ), 110, 121] = SharpeVal.zero) ∧
     (∀ v, seriesVar (pct_change [(100 : ℚ), 110, 121]) = some v → v = 0 →
       sharpe_of [(100 : ℚ), 110, 121] = SharpeVal.zero) ∧
     (∀ v, seriesVar (pct_change [(100 : ℚ), 110, 121]) = some v → v ≠ 0 →
       sharpe_of [(100 : ℚ), 110, 121]
         = SharpeVal.val (specMean (specDailyReturns [(100 : ℚ), 110, 121])) v ∧
       v = specVariance (specDailyReturns [(100 : ℚ), 110, 121]))) :=
  ⟨by norm_num, c7_sharpe [(100 : ℚ), 110, 121] (by norm_num)⟩

end BacktestingEngine

/-! ### Portfolio Ledger (services/portfolio_manager.py) and the strategy
factory (api/routes/strategies.py) -/

/-- models/trade.py `OrderStatus`. -/
inductive OrderStatus
  | PENDING
  | EXECUTED
  | CANCELLED
deriving DecidableEq, Repr

/-- models/trade.py `Trade` row as the ledger creates it (id and timestamp
omitted); the `pnl` column defaults to 0 and is assigned on a SELL. -/
structure TradeRec where
  symbol : String
  strategy : String
  order_type : OrderType
  quantity : ℚ
  price : ℚ
  commission : ℚ
  status : OrderStatus
  pnl : ℚ
deriving DecidableEq, Repr

/-- models/portfolio.py `Portfolio` row (called `Account` here); `positions`
is the JSON dict symbol → quantity, modelled as an association list. -/
structure Account where
  strategy : String
  cash : ℚ
  equity : ℚ
  positions : List (String × ℚ)
  total_pnl : ℚ
  total_trades : ℕ
  winning_trades : ℕ
  losing_trades : ℕ
deriving DecidableEq, Repr

/-- The strategy variants api/routes/strategies.py `get_strategy` constructs,
with the default parameters the factory supplies; the request parameter-dict
extraction is elided, since only the dispatch and its failure matter to the
claims. -/
inductive StrategyChoice
  | ma (st : MACrossover)
  | rsi (period oversold overbought : ℤ)
  | bollinger (st : BollingerBands)
deriving DecidableEq, Repr

/-- Python `str.upper()`; the library `String.toUpper` computes the same
character map through a non-structural loop, so the map is written directly
over the character list. -/
def pyUpper (s : String) : String := String.mk (s.data.map Char.toUpper)

/-- api/routes/strategies.py `get_strategy`: case-insensitive dispatch on the
strategy name; an unrecognized name raises a `ValueError` whose message names
the strategy. -/
def get_strategy (strategy_name : String) : Except PyError StrategyChoice :=
  if pyUpper strategy_name = "MA_CROSSOVER" then
    .ok (StrategyChoice.ma { short_window := 20, long_window := 50, ma_type := MAType.SMA })
  else if pyUpper strategy_name = "RSI" then
    .ok (StrategyChoice.rsi 14 30 70)
  else if pyUpper strategy_name = "BOLLINGER_BANDS" then
    .ok (StrategyChoice.bollinger { period := 20, std_dev := 2 })
  else
    .error (PyError.valueError ("Unknown strategy: " ++ strategy_name))

namespace PortfolioManager

/-- `positions.get(symbol, 0)`. -/
def getPos (ps : List (String × ℚ)) (symbol : String) : ℚ :=
  (ps.lookup symbol).getD 0

/-- `positions[symbol] = q` (insert or overwrite). -/
def setPos (ps : List (String × ℚ)) (symbol : String) (q : ℚ) : List (String × ℚ) :=
  if (ps.lookup symbol).isSome then
    ps.map (fun p => if p.1 = symbol then (symbol, q) else p)
  else ps ++ [(symbol, q)]

/-- `del positions[symbol]`. -/
def delPos (ps : List (String × ℚ)) (symbol : String) : List (String × ℚ) :=
  ps.filter (fun p => !(p.1 == symbol))

/-- The message of portfolio_manager.py line 63; the Python f-string renders
the two amounts with two decimals, the embedding renders the exact rational. -/
def insufficientCashMsg (available required : ℚ) : String :=
  "Insufficient cash. Available: $" ++ toString available
    ++ ", Required: $" ++ toString required

/-- The message of portfolio_manager.py line 92. -/
def insufficientPositionMsg (symbol : String) (held toSell : ℚ) : String :=
  "Insufficient (" ++ symbol ++ ") position. Have: " ++ toString held
    ++ ", Trying to sell: " ++ toString toSell

/-- portfolio_manager.py `_get_average_buy_price`: quantity-weighted mean
price of the executed BUY trades for (symbol, strategy) in the database,
0 with no such trades or zero total quantity. -/
def get_average_buy_price (db_trades : List TradeRec) (strategy symbol : String) : ℚ :=
  let buy_trades := db_trades.filter (fun t =>
    decide (t.symbol = symbol) && decide (t.strategy = strategy) &&
    decide (t.order_type = OrderType.BUY) && decide (t.status = OrderStatus.EXECUTED))
  if buy_trades = [] then 0
  else
    let total_cost := (buy_trades.map (fun t => t.price * t.quantity)).sum
    let total_quantity := (buy_trades.map (fun t => t.quantity)).sum
    if 0 < total_quantity then total_cost / total_quantity else 0

/-- portfolio_manager.py `_calculate_equity`: cash plus the value of each
position at the feed's latest price; a symbol whose price lookup fails is
skipped (the exception is caught and printed). -/
def calculate_equity (latest_price : String → Option ℚ) (acct : Account) : ℚ :=
  acct.positions.foldl (fun e p =>
    match latest_price p.1 with
    | some pr => e + pr * p.2
    | none => e) acct.cash

/-- portfolio_manager.py `execute_trade`.  The live quote for the traded
symbol is the caller-supplied `current_price` (`data_feed.get_latest_price`),
the database of prior trades is `db_trades`, and `latest_price` stands for
the feed used by the equity recomputation.  A raised `ValueError` is returned
as an error carrying the account as mutated so far; both raises occur before
any mutation, so they carry the unchanged account. -/
def execute_trade (rate : ℚ) (strategy : String) (db_trades : List TradeRec)
    (latest_price : String → Option ℚ) (acct : Account)
    (symbol : String) (order_type : OrderType) (quantity current_price : ℚ) :
    Except (PyError × Account) (TradeRec × Account) :=
  let commission := current_price * quantity * rate
  let total_cost := current_price * quantity + commission
  if order_type = OrderType.BUY ∧ acct.cash < total_cost then
    .error (PyError.valueError (insufficientCashMsg acct.cash total_cost), acct)
  else
    let trade : TradeRec :=
      { symbol := symbol, strategy := strategy, order_type := order_type,
        quantity := quantity, price := current_price, commission := commission,
        status := OrderStatus.EXECUTED, pnl := 0 }
    match order_type with
    | OrderType.BUY =>
      let acct1 :=
        { acct with cash := acct.cash - total_cost,
                    positions := setPos acct.positions symbol
                      (getPos acct.positions symbol + quantity) }
      let acct2 := { acct1 with total_trades := acct1.total_trades + 1 }
      let acct3 := { acct2 with equity := calculate_equity latest_price acct2 }
      .ok (trade, acct3)
    | OrderType.SELL =>
      let current_quantity := getPos acct.positions symbol
      if current_quantity < quantity then
        .error (PyError.valueError
          (insufficientPositionMsg symbol current_quantity quantity), acct)
      else
        let avg_buy_price := get_average_buy_price db_trades strategy symbol
        let pnl := (current_price - avg_buy_price) * quantity - commission
        let trade1 := { trade with pnl := pnl }
        let newq := current_quantity - quantity
        let positions1 :=
          if newq = 0 then delPos acct.positions symbol
          else setPos acct.positions symbol newq
        let acct1 :=
          { acct with cash := acct.cash + (current_price * quantity - commission),
                      positions := positions1,
                      total_pnl := acct.total_pnl + pnl,
                      winning_trades := if 0 < pnl then acct.winning_trades + 1
                        else acct.winning_trades,
                      losing_trades := if 0 < pnl then acct.losing_trades
                        else acct.losing_trades + 1 }
        let acct2 := { acct1 with total_trades := acct1.total_trades + 1 }
        let acct3 := { acct2 with equity := calculate_equity latest_price acct2 }
        .ok (trade1, acct3)

end PortfolioManager

/-- A concrete ledger account used by the counterexamples and witnesses:
strategy key s1, cash 1000, no open positions, zeroed counters. -/
def sampleAccount : Account :=
  { strategy := "s1", cash := 1000, equity := 1000, positions := [],
    total_pnl := 0, total_trades := 0, winning_trades := 0, losing_trades := 0 }

namespace PortfolioManager

/-- Claim C9: a BUY fails whenever cash < price × quantity + commission, and
the failure is raised before any field of the account is written: the error
carries the account exactly as it was before the call (cash, positions, pnl
and all trade counters unchanged). -/
theorem c9_buy_insufficient_cash (rate : ℚ) (strategy : String)
    (db_trades : List TradeRec) (latest_price : String → Option ℚ)
    (acct : Account) (symbol : String) (quantity current_price : ℚ)
    (h : acct.cash < current_price * quantity + current_price * quantity * rate) :
    execute_trade rate strategy db_trades latest_price acct symbol OrderType.BUY
        quantity current_price
      = .error (PyError.valueError (insufficientCashMsg acct.cash
          (current_price * quantity + current_price * quantity * rate)), acct) := by
  unfold execute_trade
  dsimp only
  rw [if_pos ⟨rfl, h⟩]

/-- Witness for claim C9, the spec's scenario 4: cash 1000, BUY of 10 units
at price 120 with zero commission, total cost 1200. -/
theorem c9_buy_insufficient_cash_witness :
    sampleAccount.cash < 120 * 10 + 120 * 10 * 0 ∧
    execute_trade 0 ("s1") [] (fun _ => none) sampleAccount ("AAPL") OrderType.BUY 10 120
      = .error (PyError.valueError (insufficientCashMsg sampleAccount.cash
          ((120 : ℚ) * 10 + 120 * 10 * 0)), sampleAccount) :=
  ⟨by norm_num [sampleAccount],
   c9_buy_insufficient_cash 0 ("s1") [] (fun _ => none) sampleAccount ("AAPL") 10 120
     (by norm_num [sampleAccount])⟩

/-- Claim C10: a successfully executed SELL computes
pnl = (price − average buy price) × quantity − commission and increments
winning_trades exactly when pnl > 0; every other executed SELL — including
one whose pnl is exactly 0 — increments losing_trades. -/
theorem c10_sell_zero_pnl (rate : ℚ) (strategy : String)
    (db_trades : List TradeRec) (latest_price : String → Option ℚ)
    (acct : Account) (symbol : String) (quantity current_price : ℚ)
    (hq : quantity ≤ getPos acct.positions symbol) :
    ∃ tr acct',
      execute_trade rate strategy db_trades latest_price acct symbol OrderType.SELL
          quantity current_price = .ok (tr, acct') ∧
      tr.pnl = (current_price - get_average_buy_price db_trades strategy symbol)
          * quantity - current_price * quantity * rate ∧
      acct'.winning_trades =
        (if 0 < tr.pnl then acct.winning_trades + 1 else acct.winning_trades) ∧
      acct'.losing_trades =
        (if 0 < tr.pnl then acct.losing_trades else acct.losing_trades + 1) ∧
      (tr.pnl = 0 → acct'.losing_trades = acct.losing_trades + 1 ∧
        acct'.winning_trades = acct.winning_trades) := by
  unfold execute_trade
  dsimp only
  rw [if_neg (by rintro ⟨hh, -⟩; exact OrderType.noConfusion hh)]
  rw [if_neg (not_lt.mpr hq)]
  refine ⟨_, _, rfl, rfl, rfl, rfl, ?_⟩
  intro h0
  have h0' : (current_price - get_average_buy_price db_trades strategy symbol)
      * quantity - current_price * quantity * rate = 0 := h0
  have hng : ¬ (0 < (current_price - get_average_buy_price db_trades strategy symbol)
      * quantity - current_price * quantity * rate) := by
    rw [h0']
    exact lt_irrefl 0
  constructor
  · simp [hng]
  · simp [hng]

end PortfolioManager

/-- A ledger account holding 10 units of AAPL, used by the C10 witness. -/
def sampleHolding : Account :=
  { strategy := "s1", cash := 1000, equity := 2000, positions := [("AAPL", 10)],
    total_pnl := 0, total_trades := 1, winning_trades := 0, losing_trades := 0 }

/-- The executed BUY that opened the sample holding: 10 units at price 100. -/
def sampleBuyTrade : TradeRec :=
  { symbol := "AAPL", strategy := "s1", order_type := OrderType.BUY,
    quantity := 10, price := 100, commission := 0,
    status := OrderStatus.EXECUTED, pnl := 0 }

namespace PortfolioManager

/-- Witness for claim C10 at a concrete input: selling the full 10-unit AAPL
position at its average buy price 100 with zero commission gives pnl exactly
0, and the SELL increments losing_trades. -/
theorem c10_sell_zero_pnl_witness :
    (10 : ℚ) ≤ getPos sampleHolding.positions ("AAPL") ∧
    (∃ tr acct',
      execute_trade 0 ("s1") [sampleBuyTrade] (fun _ => none) sampleHolding ("AAPL")
          OrderType.SELL 10 100 = .ok (tr, acct') ∧
      tr.pnl = ((100 : ℚ) - get_average_buy_price [sampleBuyTrade] "s1" "AAPL")
          * 10 - 100 * 10 * 0 ∧
      acct'.winning_trades =
        (if 0 < tr.pnl then sampleHolding.winning_trades + 1
         else sampleHolding.winning_trades) ∧
      acct'.losing_trades =
        (if 0 < tr.pnl then sampleHolding.losing_trades
         else sampleHolding.losing_trades + 1) ∧
      (tr.pnl = 0 → acct'.losing_trades = sampleHolding.losing_trades + 1 ∧
        acct'.winning_trades = sampleHolding.winning_trades)) :=
  ⟨by norm_num [getPos, sampleHolding, List.lookup],
   c10_sell_zero_pnl 0 ("s1") [sampleBuyTrade] (fun _ => none) sampleHolding ("AAPL") 10 100
     (by norm_num [getPos, sampleHolding, List.lookup])⟩

/-- Claim C1, counterexample: the four expected error conditions all raise
the same Python exception class.  At concrete inputs — an unknown strategy
name, a frame missing the volume column, a BUY costing 1200 against cash
1000, and a SELL of 5 units with no position — every failure has kind
`ValueError`; the conditions are not surfaced as distinct,
caller-distinguishable error kinds. -/
theorem c1_counterexample :
    errKind id (get_strategy ("MOMENTUM")) = some ("ValueError") ∧
    errKind id ((MACrossover.mk 20 50 MAType.SMA).generate_signals
      (BarFrame.mk ["open", "high", "low", "close"] [])) = some ("ValueError") ∧
    errKind (fun e : PyError × Account => e.1)
      (execute_trade 0 ("s1") [] (fun _ => none) sampleAccount ("AAPL")
        OrderType.BUY 10 120) = some ("ValueError") ∧
    errKind (fun e : PyError × Account => e.1)
      (execute_trade 0 ("s1") [] (fun _ => none) sampleAccount ("AAPL")
        OrderType.SELL 5 100) = some ("ValueError") := by
  refine ⟨rfl, rfl, ?_, ?_⟩
  · have h3 : execute_trade 0 ("s1") [] (fun _ => none) sampleAccount ("AAPL")
        OrderType.BUY 10 120
        = .error (PyError.valueError (insufficientCashMsg sampleAccount.cash
            (120 * 10 + 120 * 10 * 0)), sampleAccount) := by
      unfold execute_trade
      dsimp only
      rw [if_pos ⟨rfl, by norm_num [sampleAccount]⟩]
    rw [h3]
    rfl
  · have h4 : execute_trade 0 ("s1") [] (fun _ => none) sampleAccount ("AAPL")
        OrderType.SELL 5 100
        = .error (PyError.valueError (insufficientPositionMsg ("AAPL")
            (getPos sampleAccount.positions ("AAPL")) 5), sampleAccount) := by
      unfold execute_trade
      dsimp only
      rw [if_neg (by rintro ⟨hh, -⟩; exact OrderType.noConfusion hh)]
      rw [if_pos (by norm_num [getPos, sampleAccount, List.lookup])]
    rw [h4]
    rfl

/-- Claim C1 (amended): the four expected error conditions are raised at the
claimed trigger points, but all as the one generic builtin `ValueError` kind,
distinguishable only by their message text: "Unknown strategy: NAME" from the
factory, "Invalid data format" from `generate_signals` of either strategy
when a required column is missing, and the insufficient-cash and
insufficient-position messages from the ledger (each raised before any
account mutation, so the account is unchanged on failure). -/
theorem c1_errors_amended :
    (∀ name : String, pyUpper name ≠ "MA_CROSSOVER" → pyUpper name ≠ "RSI" →
      pyUpper name ≠ "BOLLINGER_BANDS" →
      get_strategy name = .error (PyError.valueError ("Unknown strategy: " ++ name))) ∧
    (∀ (st : MACrossover) (data : BarFrame), validate_data data = false →
      st.generate_signals data = .error (PyError.valueError ("Invalid data format"))) ∧
    (∀ (st : BollingerBands) (data : BarFrame), validate_data data = false →
      st.generate_signals data = .error (PyError.valueError ("Invalid data format"))) ∧
    (∀ (rate : ℚ) (strategy : String) (db_trades : List TradeRec)
      (latest_price : String → Option ℚ) (acct : Account) (symbol : String)
      (quantity current_price : ℚ),
      acct.cash < current_price * quantity + current_price * quantity * rate →
      execute_trade rate strategy db_trades latest_price acct symbol OrderType.BUY
          quantity current_price
        = .error (PyError.valueError (insufficientCashMsg acct.cash
            (current_price * quantity + current_price * quantity * rate)), acct)) ∧
    (∀ (rate : ℚ) (strategy : String) (db_trades : List TradeRec)
      (latest_price : String → Option ℚ) (acct : Account) (symbol : String)
      (quantity current_price : ℚ),
      getPos acct.positions symbol < quantity →
      execute_trade rate strategy db_trades latest_price acct symbol OrderType.SELL
          quantity current_price
        = .error (PyError.valueError (insufficientPositionMsg symbol
            (getPos acct.positions symbol) quantity), acct)) ∧
    (∀ msg : String, (PyError.valueError msg).kind = "ValueError") := by
  refine ⟨?_, ?_, ?_, ?_, ?_, fun _ => rfl⟩
  · intro name h1 h2 h3
    unfold get_strategy
    rw [if_neg h1, if_neg h2, if_neg h3]
  · intro st data hv
    unfold MACrossover.generate_signals
    rw [hv]
    rfl
  · intro st data hv
    unfold BollingerBands.generate_signals
    rw [hv]
    rfl
  · intro rate strategy db_trades latest_price acct symbol quantity current_price h
    unfold execute_trade
    dsimp only
    rw [if_pos ⟨rfl, h⟩]
  · intro rate strategy db_trades latest_price acct symbol quantity current_price h
    unfold execute_trade
    dsimp only
    rw [if_neg (by rintro ⟨hh, -⟩; exact OrderType.noConfusion hh)]
    rw [if_pos h]

/-- Witness for the amended claim C1: each error site instantiated at the
concrete inputs of the counterexample. -/
theorem c1_errors_amended_witness :
    get_strategy ("MOMENTUM")
      = .error (PyError.valueError ("Unknown strategy: " ++ "MOMENTUM")) ∧
    (MACrossover.mk 20 50 MAType.SMA).generate_signals
        (BarFrame.mk ["open", "high", "low", "close"] [])
      = .error (PyError.valueError ("Invalid data format")) ∧
    execute_trade 0 ("s1") [] (fun _ => none) sampleAccount ("AAPL") OrderType.BUY 10 120
      = .error (PyError.valueError (insufficientCashMsg sampleAccount.cash
          ((120 : ℚ) * 10 + 120 * 10 * 0)), sampleAccount) ∧
    execute_trade 0 ("s1") [] (fun _ => none) sampleAccount ("AAPL") OrderType.SELL 5 100
      = .error (PyError.valueError (insufficientPositionMsg ("AAPL")
          (getPos sampleAccount.positions ("AAPL")) 5), sampleAccount) ∧
    (PyError.valueError ("Invalid data format")).kind = "ValueError" :=
  ⟨c1_errors_amended.1 ("MOMENTUM") (by decide) (by decide) (by decide),
   c1_errors_amended.2.1 (MACrossover.mk 20 50 MAType.SMA)
     (BarFrame.mk ["open", "high", "low", "close"] []) (by decide),
   c1_errors_amended.2.2.2.1 0 ("s1") [] (fun _ => none) sampleAccount ("AAPL") 10 120
     (by norm_num [sampleAccount]),
   c1_errors_amended.2.2.2.2.1 0 ("s1") [] (fun _ => none) sampleAccount ("AAPL") 5 100
     (by norm_num [getPos, sampleAccount, List.lookup]),
   c1_errors_amended.2.2.2.2.2 ("Invalid data format")⟩

end PortfolioManager
